import Mathlib

/-!
Verification of the curator request-processing core.

This file gives a shallow embedding, in Lean 4, of the parts of the
repository that the frozen claims talk about:

* `src/bespokelabs/curator/request_processor/offline/base_offline_request_processor.py`
  (the `process_requests_from_file` resume / resume-no-retry / overwrite logic);
* `src/bespokelabs/curator/request_processor/online/openai_online_request_processor.py`
  (`call_single_request`, `estimate_output_tokens`, `estimate_total_tokens`,
  `check_structured_output_support`);
* the function-fingerprint `_get_function_hash`, whose defining module is not
  part of the sources here and is therefore modelled from the specification.

Python strings are modelled as Lean `String`; Python `str.lower` is modelled
by an ASCII lowercasing map (no non-ASCII character lowercases onto the
ASCII strings compared in this code, so the model agrees with Python on
every comparison performed).  Python sets of row indices are modelled as
lists with `List.insert` (membership is all the code uses).  Python
exceptions are modelled by explicit sum types (`Except`, or dedicated
result types).  Files are modelled by their decoded line lists.
-/

/-- ASCII model of Python `str.lower` on a single character. -/
def pyLowerChar (c : Char) : Char :=
  if 65 ≤ c.toNat ∧ c.toNat ≤ 90 then Char.ofNat (c.toNat + 32) else c

/-- ASCII model of Python `str.lower`. -/
def pyLower (s : String) : String := ⟨s.data.map pyLowerChar⟩

/-- If `pat` is a leading segment of `l`, return the remainder. -/
def dropPrefixQ : List Char → List Char → Option (List Char)
  | [], l => some l
  | _ :: _, [] => none
  | p :: ps, c :: cs => if p = c then dropPrefixQ ps cs else none

/-- Occurrence test for `pat` inside `l`: model of the Python operator
`pat in l` on strings, at the character-list level. -/
def hasSubL (pat : List Char) : List Char → Bool
  | [] => (dropPrefixQ pat []).isSome
  | c :: cs => (dropPrefixQ pat (c :: cs)).isSome || hasSubL pat cs

/-- Model of the Python string containment test `pat in s`. -/
def hasSub (s pat : String) : Bool := hasSubL pat.data s.data

/-- Fuel-indexed splitter: model of Python `s.split(sep)` for a non-empty
separator, on character lists.  `fuel ≥ length of the list` makes the fuel
irrelevant; `pySplit` below always supplies enough. -/
def splitOnFuel (pat : List Char) : Nat → List Char → List (List Char)
  | _, [] => [[]]
  | 0, l => [l]
  | fuel + 1, c :: cs =>
    match dropPrefixQ pat (c :: cs) with
    | some rest => [] :: splitOnFuel pat fuel rest
    | none =>
      match splitOnFuel pat fuel cs with
      | [] => [[c]]
      | h :: t => (c :: h) :: t

/-- Model of Python `s.split(sep)` for a non-empty separator. -/
def pySplit (s sep : String) : List String :=
  (splitOnFuel sep.data s.data.length s.data).map (fun l => ⟨l⟩)

/-- The generic request: only `original_row_idx` is accessed by the code
under verification (the full pydantic model lives outside the given
sources), plus the prompt payload standing for the remaining fields. -/
structure GenericRequest where
  original_row_idx : Nat
  deriving DecidableEq, Repr

/-- Token usage triple, as read from the wire `usage` object. -/
structure TokenUsage where
  prompt_tokens : Nat
  completion_tokens : Nat
  total_tokens : Nat
  deriving DecidableEq, Repr

/-- The decoded `error` object of a wire response.  `message = none` models
a missing `message` key (the code reads it with `error.get`, defaulting to
the empty string). -/
structure WireError where
  message : Option String
  deriving DecidableEq, Repr

/-- The decoded `message` object inside a choice.  The outer `Option`
models presence of the `content` key (a missing key makes the read
`["content"]` raise a `KeyError`); the inner `Option` is the value itself,
which may be JSON null. -/
structure WireMessage where
  content : Option (Option String)
  deriving DecidableEq, Repr

/-- One element of the decoded `choices` array.  `message = none` models a
choice object without a `message` key, so that the read `["message"]`
raises a `KeyError`. -/
structure WireChoice where
  message : Option WireMessage
  deriving DecidableEq, Repr

/-- The decoded `usage` object.  Each field is optional: a missing key
makes the corresponding read `usage["..."]` raise a `KeyError`. -/
structure WireUsage where
  prompt_tokens : Option Nat
  completion_tokens : Option Nat
  total_tokens : Option Nat
  deriving DecidableEq, Repr

/-- The decoded JSON body of a wire response, restricted to the keys the
code reads.  An outer `none` models a missing key (so that reading it
raises a Python `KeyError`). -/
structure WireResponse where
  error : Option WireError
  choices : Option (List WireChoice)
  usage : Option WireUsage
  deriving DecidableEq, Repr

/-- The generic response, restricted to the fields the code under
verification reads or writes.  `created_at`, `finished_at` and
`response_cost` (wall-clock timestamps and a float) are omitted; they are
never read back by this code. -/
structure GenericResponse where
  response_message : Option String
  response_errors : Option (List String)
  generic_request : GenericRequest
  token_usage : Option TokenUsage := none
  raw_response : Option WireResponse := none
  deriving DecidableEq, Repr

/-- The per-dispatch task object built by `process_requests_from_file`.
`api_specific_request` is produced by the provider-specific translation,
abstracted as a type parameter; `result`, `prompt_formatter` and
`created_at` are defaulted fields never read by the code modelled here. -/
structure APIRequest (α : Type) where
  task_id : Nat
  generic_request : GenericRequest
  api_specific_request : α
  deriving DecidableEq, Repr

/-- Truthiness of the `response_errors` field, as tested by
`if response.response_errors:` in Python — true exactly for a present,
non-empty error list. -/
def errorsTruthy : Option (List String) → Bool
  | none => false
  | some es => !es.isEmpty

/-- Accumulator of the resume scan loop over the existing response log. -/
structure ResumeScanState where
  kept : List GenericResponse
  completed_request_ids : List Nat
  num_previously_failed_requests : Nat
  deriving DecidableEq, Repr

/-- One iteration of the `resume` scan loop of
`process_requests_from_file`: faithful to the source, the
`response_errors` test only increments the failure counter (it does not
skip the line), and the line is dropped exactly when `response_message` is
null; otherwise it is written back and its row id marked completed. -/
def resumeScanStep (st : ResumeScanState) (response : GenericResponse) : ResumeScanState :=
  let st1 :=
    if errorsTruthy response.response_errors then
      { st with num_previously_failed_requests := st.num_previously_failed_requests + 1 }
    else st
  match response.response_message with
  | none =>
    { st1 with num_previously_failed_requests := st1.num_previously_failed_requests + 1 }
  | some _ =>
    { st1 with
      completed_request_ids :=
        st1.completed_request_ids.insert response.generic_request.original_row_idx
      kept := st1.kept ++ [response] }

/-- The `resume` branch scan over the whole existing log; the `kept` lines
are what `os.replace` installs as the new save file. -/
def resumeScan (log : List GenericResponse) : ResumeScanState :=
  log.foldl resumeScanStep ⟨[], [], 0⟩

/-- The `resume_no_retry` branch scan: every logged row id is marked
completed, and rows with truthy `response_errors` are only counted.  The
save file is not rewritten in this branch. -/
def resumeNoRetryScan (log : List GenericResponse) : List Nat × Nat :=
  log.foldl
    (fun acc response =>
      (acc.1.insert response.generic_request.original_row_idx,
       if errorsTruthy response.response_errors then acc.2 + 1 else acc.2))
    ([], 0)

/-- Outcome of `process_requests_from_file`.  `aborted` is the early
`return` after a refused overwrite prompt: no request is submitted and the
save file is left untouched.  `completed` carries the list of submitted
`APIRequest` tasks and the final decoded contents of the save file. -/
inductive ProcessOutcome (α : Type) where
  | aborted : ProcessOutcome α
  | completed (submitted : List (APIRequest α)) (finalFile : List GenericResponse) :
      ProcessOutcome α
  deriving DecidableEq, Repr

/-- Shallow embedding of
`BaseOfflineRequestProcessor.process_requests_from_file`.

* `createApi` stands for `self.create_api_specific_request` and
  `processRequests` for `self.process_requests` (both provided by
  subclasses outside these sources);
* `saveFile` is the decoded line list of the save file, `none` when the
  file does not exist;
* `requestFile` is the decoded request file;
* `userInput` is what `input()` would return at the overwrite prompt.

The returned outcome carries the submitted tasks and the final save-file
contents (the scan result of the chosen branch followed by the appended
responses, matching the `open(save_filepath, "a")` write loop). -/
def process_requests_from_file {α : Type} (createApi : GenericRequest → α)
    (processRequests : List (APIRequest α) → List GenericResponse)
    (saveFile : Option (List GenericResponse)) (requestFile : List GenericRequest)
    (resume : Bool) (resume_no_retry : Bool) (userInput : String) : ProcessOutcome α :=
  let scanned : Option (List Nat × List GenericResponse) :=
    match saveFile with
    | none => some ([], [])
    | some log =>
      if resume then
        let st := resumeScan log
        some (st.completed_request_ids, st.kept)
      else if resume_no_retry then
        some ((resumeNoRetryScan log).1, log)
      else if pyLower userInput ∉ (["y", ""] : List String) then
        none
      else
        some ([], log)
  match scanned with
  | none => ProcessOutcome.aborted
  | some (completed_request_ids, fileLines) =>
    let requests :=
      (requestFile.filter
        (fun request => decide (request.original_row_idx ∉ completed_request_ids))).map
        (fun request =>
          ⟨request.original_row_idx, request, createApi request⟩)
    let responses := processRequests requests
    ProcessOutcome.completed requests (fileLines ++ responses)

/-- The online status tracker, restricted to the fields that
`call_single_request` mutates (the remaining counters of the base class
are not touched by this function).  Counters are Python integers, hence
`Int`: the compensating decrement below can drive one negative.  The time
of the last rate-limit error is an abstract clock reading. -/
structure OnlineStatusTracker where
  num_api_errors : Int := 0
  num_rate_limit_errors : Int := 0
  num_other_errors : Int := 0
  time_of_last_rate_limit_error : Option Nat := none
  deriving DecidableEq, Repr

/-- Result of one `call_single_request` execution: either an exception
propagates (`raised`, carrying the tracker as mutated so far) or a
`GenericResponse` is returned. -/
inductive CallResult where
  | raised (status_tracker : OnlineStatusTracker) (msg : String) : CallResult
  | returned (status_tracker : OnlineStatusTracker) (response : GenericResponse) : CallResult
  deriving DecidableEq, Repr

/-- Shallow embedding of
`OpenAIOnlineRequestProcessor.call_single_request`.

* `httpStatus` is `response_obj.status` and `response` its decoded JSON
  body; `now` is the value `time.time()` would return.
* The `error` branch mirrors the source: `num_api_errors` is incremented,
  then, when the error message contains `rate limit` case-insensitively,
  the rate-limit timestamp is set, `num_rate_limit_errors` is incremented
  and both `num_api_errors` and `num_other_errors` are decremented (the
  source comments this as compensation for double counting in the retry
  wrapper), and the exception is raised.
* The extraction `response["choices"][0]["message"]["content"]` raises
  the corresponding Python lookup error at every missing step: a missing
  `choices` key, an empty `choices` array, a first choice without a
  `message` key, or a message without a `content` key; likewise
  `response["usage"]` and the three field reads that build `TokenUsage`
  raise when the key is absent.  A present `content` whose value is JSON
  null simply yields `response_message = None`.
* The float `completion_cost` and the timestamps of the built response are
  omitted, as in `GenericResponse` above. -/
def call_single_request {α : Type} (request : APIRequest α) (httpStatus : Nat)
    (response : WireResponse) (now : Nat)
    (status_tracker : OnlineStatusTracker) : CallResult :=
  match response.error with
  | some error =>
    let t := { status_tracker with num_api_errors := status_tracker.num_api_errors + 1 }
    if hasSub (pyLower (error.message.getD "")) "rate limit" then
      CallResult.raised
        { t with
          time_of_last_rate_limit_error := some now
          num_rate_limit_errors := t.num_rate_limit_errors + 1
          num_api_errors := t.num_api_errors - 1
          num_other_errors := t.num_other_errors - 1 }
        "API error"
    else CallResult.raised t "API error"
  | none =>
    if httpStatus ≠ 200 then
      CallResult.raised status_tracker "API request failed with status"
    else
      match response.choices with
      | none => CallResult.raised status_tracker "KeyError: choices"
      | some [] => CallResult.raised status_tracker "IndexError: choices"
      | some (choice :: _) =>
        match choice.message with
        | none => CallResult.raised status_tracker "KeyError: message"
        | some msg =>
          match msg.content with
          | none => CallResult.raised status_tracker "KeyError: content"
          | some response_message =>
            match response.usage with
            | none => CallResult.raised status_tracker "KeyError: usage"
            | some usage =>
              match usage.prompt_tokens with
              | none => CallResult.raised status_tracker "KeyError: prompt_tokens"
              | some pt =>
                match usage.completion_tokens with
                | none => CallResult.raised status_tracker "KeyError: completion_tokens"
                | some ct =>
                  match usage.total_tokens with
                  | none => CallResult.raised status_tracker "KeyError: total_tokens"
                  | some tt =>
                    CallResult.returned status_tracker
                      { response_message := response_message
                        response_errors := none
                        generic_request := request.generic_request
                        token_usage := some ⟨pt, ct, tt⟩
                        raw_response := some response }

/-- The condition under which `call_single_request` classifies the wire
response as a rate-limit error. -/
def isRateLimitError (response : WireResponse) : Bool :=
  match response.error with
  | some error => hasSub (pyLower (error.message.getD "")) "rate limit"
  | none => false

/-- The tracker state carried by either constructor of `CallResult`. -/
def trackerOf : CallResult → OnlineStatusTracker
  | CallResult.raised t _ => t
  | CallResult.returned t _ => t

/-- Shallow embedding of
`OpenAIOnlineRequestProcessor.estimate_output_tokens`: a quarter of the
maximum output tokens reported by the model table, or `0` when the lookup
raises (`getMaxTokens = none`). -/
def estimate_output_tokens (getMaxTokens : Option Nat) : Nat :=
  match getMaxTokens with
  | some m => m / 4
  | none => 0

/-- One Python message dictionary, as the ordered key/value pairs that
`message.items()` yields (values already passed through `str`). -/
structure PyMessage where
  items : List (String × String)
  deriving DecidableEq, Repr

/-- Shallow embedding of
`OpenAIOnlineRequestProcessor.estimate_total_tokens`.  `enc v` stands for
`len(self.token_encoding.encode(str(v), disallowed_special=()))`; the
`TypeError` fallback of the source is subsumed by `enc` being an arbitrary
total token-counting function.  Four tokens are added per message, one is
subtracted per `name` key, two are added for the reply priming, and the
output-token estimate is added at the end. -/
def estimate_total_tokens (enc : String → Nat) (getMaxTokens : Option Nat)
    (messages : List PyMessage) : Int :=
  let num_tokens := messages.foldl
    (fun acc message =>
      message.items.foldl
        (fun a kv =>
          let a1 := a + (enc kv.2 : Int)
          if kv.1 = "name" then a1 - 1 else a1)
        (acc + 4))
    0
  num_tokens + 2 + (estimate_output_tokens getMaxTokens : Int)

/-- Decimal-digit test on a character, as `strptime` would accept. -/
def isDigitC (c : Char) : Bool := decide (48 ≤ c.toNat ∧ c.toNat ≤ 57)

/-- Numeric value of a decimal digit character. -/
def digitVal (c : Char) : Nat := c.toNat - 48

/-- A parsed calendar date, standing for a `datetime.datetime` at
midnight (the only values compared by the code). -/
structure PyDate where
  year : Nat
  month : Nat
  day : Nat
  deriving DecidableEq, Repr

/-- Lexicographic comparison of dates: model of `datetime.__ge__`. -/
def dateGE (a b : PyDate) : Bool :=
  decide (b.year < a.year ∨ (a.year = b.year ∧
    (b.month < a.month ∨ (a.month = b.month ∧ b.day ≤ a.day))))

/-- Modelled from the spec: `datetime.datetime.strptime(s, "%Y-%m-%d")`
belongs to the standard library, outside these sources.  The model accepts
exactly the zero-padded `YYYY-MM-DD` shape the claims quantify over, with
month and day range checks, and returns the parsed date. -/
def strptimeYMD (s : String) : Option PyDate :=
  match s.data with
  | [y1, y2, y3, y4, h1, m1, m2, h2, d1, d2] =>
    if isDigitC y1 && isDigitC y2 && isDigitC y3 && isDigitC y4
        && (h1 = '-' : Bool) && (h2 = '-' : Bool)
        && isDigitC m1 && isDigitC m2 && isDigitC d1 && isDigitC d2 then
      let y := digitVal y1 * 1000 + digitVal y2 * 100 + digitVal y3 * 10 + digitVal y4
      let mo := digitVal m1 * 10 + digitVal m2
      let dy := digitVal d1 * 10 + digitVal d2
      if (1 ≤ mo && mo ≤ 12 && 1 ≤ dy && dy ≤ 31 : Bool) then some ⟨y, mo, dy⟩
      else none
    else none
  | _ => none

/-- The trailing `o1-` block of `check_structured_output_support`,
including the final `return False` the source falls through to. -/
def checkO1Dated (mn : String) : Except String Bool :=
  if hasSub mn "o1-" then
    match (pySplit mn "o1-").get? 1 with
    | none => Except.error "IndexError"
    | some part =>
      match strptimeYMD part with
      | none => Except.error "ValueError: strptime"
      | some d => if dateGE d ⟨2024, 12, 17⟩ then Except.ok true else Except.ok false
  else Except.ok false

/-- The dated `gpt-4o-` block of `check_structured_output_support`; when
its date guard is not taken the source falls through to the `o1-` block. -/
def check4oDated (mn : String) : Except String Bool :=
  if hasSub mn "gpt-4o-" then
    match (pySplit mn "gpt-4o-").get? 1 with
    | none => Except.error "IndexError"
    | some part =>
      match strptimeYMD part with
      | none => Except.error "ValueError: strptime"
      | some d => if dateGE d ⟨2024, 8, 6⟩ then Except.ok true else checkO1Dated mn
  else checkO1Dated mn

/-- Shallow embedding of
`OpenAIOnlineRequestProcessor.check_structured_output_support`.

The dated `gpt-4o-mini-` branch mirrors the source slip: after a
successful `strptime`, the guard evaluates `datetime(2024, 7, 18)` — but
`datetime` names the imported module, not the class, so the call raises a
`TypeError`; a failed `strptime` raises a `ValueError` instead.  Either
way the branch never returns a boolean.  The later `gpt-4o-` and `o1-`
branches use the correctly qualified `datetime.datetime` and are embedded
as ordinary comparisons. -/
def check_structured_output_support (model : String) : Except String Bool :=
  let mn := pyLower model
  if mn = "gpt-4o-mini" then Except.ok true
  else if hasSub mn "gpt-4o-mini-" then
    match (pySplit mn "gpt-4o-mini-").get? 1 with
    | none => Except.error "IndexError"
    | some part =>
      match strptimeYMD part with
      | none => Except.error "ValueError: strptime"
      | some _ => Except.error "TypeError: the datetime module is not callable"
  else if mn = "gpt-4o" || mn = "o1" then Except.ok true
  else check4oDated mn

/-- Modelled from the spec: `_get_function_hash` is defined in
`bespokelabs/curator/llm/llm.py`, which is not among the given sources
(only its test is).  Following the specification, the fingerprint input of
a function definition is its logic (`co_code` bytecode), its embedded
literals (`co_consts`) and the names it references (`co_names`); its
declared name, source file path and line number are location data the
canonical serialization must ignore. -/
structure FunctionDef where
  co_code : List Nat
  co_consts : List String
  co_names : List String
  co_name : String
  co_filename : String
  co_firstlineno : Nat
  deriving DecidableEq, Repr

/-- Length-prefixed encoding of a string list, so that the canonical form
is a flat list of naturals. -/
def encodeStrList (l : List String) : List Nat :=
  l.foldr (fun s acc => (s.length :: s.data.map Char.toNat) ++ acc) []

/-- Modelled from the spec: the canonical serialization of a function
definition — location-insensitive, logic- and literal-sensitive. -/
def fnCanonical (f : FunctionDef) : List Nat :=
  (f.co_code.length :: f.co_code) ++ encodeStrList f.co_consts ++ encodeStrList f.co_names

/-- Deterministic digest of a flat natural-number list (64-bit polynomial
rolling hash). -/
def hashNats (l : List Nat) : Nat :=
  l.foldl (fun acc n => (acc * 1000003 + n) % (2 ^ 64)) 0

/-- Modelled from the spec: `_get_function_hash` digests the canonical
serialization of the definition and nothing else. -/
def getFunctionHash (f : FunctionDef) : Nat := hashNats (fnCanonical f)

theorem pyLowerChar_eq_y (c : Char) (h : pyLowerChar c = 'y') : c = 'y' ∨ c = 'Y' := by
  unfold pyLowerChar at h
  split at h
  · next hcond =>
    right
    have h2 : (Char.ofNat (c.toNat + 32)).toNat = 121 := by rw [h]; rfl
    have hv : (c.toNat + 32).isValidChar := by constructor; omega
    rw [Char.ofNat, dif_pos hv] at h2
    have h3 : (Char.ofNatAux (c.toNat + 32) hv).toNat = c.toNat + 32 := by
      simp [Char.ofNatAux, Char.toNat, UInt32.toNat, BitVec.toNat_ofNatLt]
    have h4 : c.toNat = 89 := by omega
    apply Char.ext
    apply UInt32.ext
    exact h4
  · left; exact h

theorem pyLower_eq_y (u : String) (h : pyLower u = "y") : u = "y" ∨ u = "Y" := by
  have hd : u.data.map pyLowerChar = ['y'] := congrArg String.data h
  have hu : u = ⟨u.data⟩ := rfl
  rcases hc : u.data with _ | ⟨c, rest⟩
  · rw [hc] at hd; simp at hd
  · rw [hc] at hd
    simp only [List.map_cons, List.cons.injEq] at hd
    obtain ⟨h1, h2⟩ := hd
    have hrest : rest = [] := by
      cases rest with
      | nil => rfl
      | cons a t => simp at h2
    rcases pyLowerChar_eq_y c h1 with rfl | rfl
    · left; rw [hu, hc, hrest]
    · right; rw [hu, hc, hrest]

theorem pyLower_eq_empty (u : String) (h : pyLower u = "") : u = "" := by
  have hd : u.data.map pyLowerChar = [] := congrArg String.data h
  have hu : u = ⟨u.data⟩ := rfl
  rcases hc : u.data with _ | ⟨c, rest⟩
  · rw [hu, hc]
  · rw [hc] at hd; simp at hd

/-- C1.  The repository resume scan violates the failed-row invariant the
spec states: a logged response carrying a non-empty `response_errors` list
but a non-null `response_message` is counted as previously failed, yet the
missing loop `continue` lets the following `response_message` test keep
the line and mark its row completed.  At the failing input — a one-line
log whose response has `response_errors = ["APIConnectionError"]` and
`response_message = "ok"`, with request row `0` pending — the run keeps
the line in the rewritten log and submits nothing, while the claim (and
the adjacent debug message of the source itself) requires the line to be
dropped and row `0` resubmitted. -/
theorem c1_resume_keeps_row_with_errors :
    errorsTruthy (some ["APIConnectionError"]) = true
    ∧ process_requests_from_file (fun _ => ()) (fun _ => [])
        (some [{ response_message := some "ok", response_errors := some ["APIConnectionError"],
                 generic_request := ⟨0⟩ }])
        [⟨0⟩] true false ""
      = ProcessOutcome.completed []
          [{ response_message := some "ok", response_errors := some ["APIConnectionError"],
             generic_request := ⟨0⟩ }] := by
  exact ⟨rfl, by decide⟩

theorem foldl_insert_pair_mem (log : List GenericResponse) (x : Nat) :
    ∀ init : List Nat × Nat,
      x ∈ (log.foldl
          (fun acc response =>
            (acc.1.insert response.generic_request.original_row_idx,
             if errorsTruthy response.response_errors then acc.2 + 1 else acc.2)) init).1
        ↔ x ∈ init.1 ∨ x ∈ log.map (fun r => r.generic_request.original_row_idx) := by
  induction log with
  | nil => intro init; simp
  | cons r rest ih =>
    intro init
    simp only [List.foldl_cons]
    rw [ih]
    simp [List.mem_insert_iff]
    tauto

theorem resumeNoRetryScan_mem (log : List GenericResponse) (x : Nat) :
    x ∈ (resumeNoRetryScan log).1
      ↔ x ∈ log.map (fun r => r.generic_request.original_row_idx) := by
  have h := foldl_insert_pair_mem log x ([], 0)
  simpa [resumeNoRetryScan] using h

/-- C5.  With `resume_no_retry` set (and `resume` not set) on an existing
log, every logged `original_row_idx` — failed or successful — lands in the
completed set, so the submitted tasks are exactly the request rows whose
index does not occur in the log, and the save file is extended in place:
old lines first, new responses appended. -/
theorem c5_resume_no_retry_completes_all_logged {α : Type}
    (createApi : GenericRequest → α)
    (processRequests : List (APIRequest α) → List GenericResponse)
    (log : List GenericResponse) (requestFile : List GenericRequest) (userInput : String) :
    process_requests_from_file createApi processRequests (some log) requestFile
        false true userInput
      = ProcessOutcome.completed
          ((requestFile.filter (fun request =>
              decide (request.original_row_idx
                ∉ log.map (fun r => r.generic_request.original_row_idx)))).map
            (fun request => ⟨request.original_row_idx, request, createApi request⟩))
          (log ++ processRequests
            ((requestFile.filter (fun request =>
                decide (request.original_row_idx
                  ∉ log.map (fun r => r.generic_request.original_row_idx)))).map
              (fun request => ⟨request.original_row_idx, request, createApi request⟩))) := by
  unfold process_requests_from_file
  simp only [Bool.false_eq_true, if_false, if_true]
  have hfilter :
      requestFile.filter (fun request =>
          decide (request.original_row_idx ∉ (resumeNoRetryScan log).1))
        = requestFile.filter (fun request =>
            decide (request.original_row_idx
              ∉ log.map (fun r => r.generic_request.original_row_idx))) := by
    apply List.filter_congr
    intro r _
    have h := resumeNoRetryScan_mem log r.original_row_idx
    simp [h]
  rw [hfilter]

/-- C6.  When the save file exists and neither resume flag is set, any
user input other than `y`, `Y` or the empty string makes the run return
immediately: nothing is submitted and the save file is untouched. -/
theorem c6_overwrite_prompt_aborts {α : Type}
    (createApi : GenericRequest → α)
    (processRequests : List (APIRequest α) → List GenericResponse)
    (log : List GenericResponse) (requestFile : List GenericRequest) (userInput : String)
    (h1 : userInput ≠ "y") (h2 : userInput ≠ "Y") (h3 : userInput ≠ "") :
    process_requests_from_file createApi processRequests (some log) requestFile
        false false userInput
      = ProcessOutcome.aborted := by
  unfold process_requests_from_file
  have hmem : pyLower userInput ∉ (["y", ""] : List String) := by
    intro hm
    simp only [List.mem_cons, List.not_mem_nil, or_false] at hm
    rcases hm with hy | he
    · rcases pyLower_eq_y userInput hy with rfl | rfl
      · exact h1 rfl
      · exact h2 rfl
    · exact h3 (pyLower_eq_empty userInput he)
  simp only [Bool.false_eq_true, if_false, if_pos hmem]

theorem c6_overwrite_prompt_aborts_witness :
    ("n" ≠ "y" ∧ "n" ≠ "Y" ∧ "n" ≠ "")
    ∧ process_requests_from_file (fun _ => ()) (fun _ => [])
        (some [{ response_message := none, response_errors := none, generic_request := ⟨3⟩ }])
        [⟨3⟩] false false "n"
      = ProcessOutcome.aborted := by
  refine ⟨⟨by decide, by decide, by decide⟩, ?_⟩
  exact c6_overwrite_prompt_aborts (fun _ => ()) (fun _ => [])
    [{ response_message := none, response_errors := none, generic_request := ⟨3⟩ }]
    [⟨3⟩] "n" (by decide) (by decide) (by decide)

/-- C9.  When the save file exists and the user confirms at the prompt
(`y`, `Y` or the empty string), the completed set stays empty and the save
file is opened for append: every request row is submitted, the old lines
are all preserved unchanged in order, and the new responses follow them —
the file is never truncated. -/
theorem c9_confirm_appends_preserves_log {α : Type}
    (createApi : GenericRequest → α)
    (processRequests : List (APIRequest α) → List GenericResponse)
    (log : List GenericResponse) (requestFile : List GenericRequest) (userInput : String)
    (h : userInput = "y" ∨ userInput = "Y" ∨ userInput = "") :
    process_requests_from_file createApi processRequests (some log) requestFile
        false false userInput
      = ProcessOutcome.completed
          (requestFile.map
            (fun request => ⟨request.original_row_idx, request, createApi request⟩))
          (log ++ processRequests
            (requestFile.map
              (fun request => ⟨request.original_row_idx, request, createApi request⟩))) := by
  unfold process_requests_from_file
  have hmem : pyLower userInput ∈ (["y", ""] : List String) := by
    rcases h with rfl | rfl | rfl <;> decide
  have hfilter :
      requestFile.filter (fun request =>
          decide (request.original_row_idx ∉ ([] : List Nat)))
        = requestFile := by
    apply List.filter_eq_self.mpr
    intro r _
    simp
  simp only [Bool.false_eq_true, if_false, if_neg (by simp [hmem] : ¬ pyLower userInput ∉ (["y", ""] : List String))]
  rw [hfilter]

theorem c9_confirm_appends_preserves_log_witness :
    process_requests_from_file (fun _ => ()) (fun _ => [])
      (some [{ response_message := some "old", response_errors := none, generic_request := ⟨3⟩ }])
      [⟨3⟩, ⟨4⟩] false false "Y"
      = ProcessOutcome.completed [⟨3, ⟨3⟩, ()⟩, ⟨4, ⟨4⟩, ()⟩]
          [{ response_message := some "old", response_errors := none, generic_request := ⟨3⟩ }] := by
  have h := c9_confirm_appends_preserves_log (fun _ => ()) (fun _ => [])
    [{ response_message := some "old", response_errors := none, generic_request := ⟨3⟩ }]
    [⟨3⟩, ⟨4⟩] "Y" (Or.inr (Or.inl rfl))
  simpa using h

/-- C2, counterexample.  Counter updates are not monotonic: on a
rate-limit-classified API error, `call_single_request` drives
`num_other_errors` from `0` down to `-1` (the source decrements it to
offset double counting in the retry wrapper), so an execution does
decrease a `StatusTracker` counter. -/
theorem c2_counter_decrease_counterexample :
    call_single_request (⟨0, ⟨0⟩, ()⟩ : APIRequest Unit) 429
        ⟨some ⟨some "Rate limit exceeded"⟩, none, none⟩ 7 {}
      = CallResult.raised
          { num_api_errors := 0, num_rate_limit_errors := 1, num_other_errors := -1,
            time_of_last_rate_limit_error := some 7 } "API error"
    ∧ (-1 : Int) < 0 := by
  exact ⟨by decide, by decide⟩

/-- C2, amended.  What `call_single_request` actually guarantees about the
tracker: a rate-limit-classified error leaves `num_api_errors` unchanged
(it is incremented, then compensated), increments `num_rate_limit_errors`
by one, decrements `num_other_errors` by one and stamps the rate-limit
time; every other outcome leaves `num_rate_limit_errors`,
`num_other_errors` and the timestamp unchanged and increments
`num_api_errors` by at most one. -/
theorem c2_counter_update_characterization {α : Type} (request : APIRequest α)
    (httpStatus : Nat) (response : WireResponse) (now : Nat)
    (t : OnlineStatusTracker) :
    if isRateLimitError response then
      trackerOf (call_single_request request httpStatus response now t)
        = { t with
            num_rate_limit_errors := t.num_rate_limit_errors + 1
            num_other_errors := t.num_other_errors - 1
            time_of_last_rate_limit_error := some now }
    else
      (trackerOf (call_single_request request httpStatus response now t)).num_rate_limit_errors
          = t.num_rate_limit_errors
      ∧ (trackerOf (call_single_request request httpStatus response now t)).num_other_errors
          = t.num_other_errors
      ∧ (trackerOf (call_single_request request httpStatus response now t)).time_of_last_rate_limit_error
          = t.time_of_last_rate_limit_error
      ∧ ((trackerOf (call_single_request request httpStatus response now t)).num_api_errors
            = t.num_api_errors
         ∨ (trackerOf (call_single_request request httpStatus response now t)).num_api_errors
            = t.num_api_errors + 1) := by
  unfold call_single_request isRateLimitError
  cases he : response.error with
  | some e =>
    by_cases hr : hasSub (pyLower (e.message.getD "")) "rate limit" = true
    · simp only [hr, if_true, trackerOf]
      cases t
      simp only [OnlineStatusTracker.mk.injEq, add_sub_cancel_right, and_self,
        eq_self_iff_true, and_true, true_and]
    · simp only [Bool.not_eq_true] at hr
      simp [hr, trackerOf]
  | none =>
    simp only [Bool.false_eq_true, if_false]
    by_cases hs : httpStatus ≠ 200
    · simp [if_pos hs, trackerOf]
    · simp only [if_neg hs]
      cases response.choices with
      | none => simp [trackerOf]
      | some choices =>
        cases choices with
        | nil => simp [trackerOf]
        | cons choice rest =>
          obtain ⟨cm⟩ := choice
          cases cm with
          | none => simp [trackerOf]
          | some msg =>
            obtain ⟨mc⟩ := msg
            cases mc with
            | none => simp [trackerOf]
            | some response_message =>
              cases response.usage with
              | none => simp [trackerOf]
              | some usage =>
                obtain ⟨upt, uct, utt⟩ := usage
                cases upt with
                | none => simp [trackerOf]
                | some pt =>
                  cases uct with
                  | none => simp [trackerOf]
                  | some ct =>
                    cases utt with
                    | none => simp [trackerOf]
                    | some tt => simp [trackerOf]

/-- C7.  Whenever the decoded body carries an `error` object whose message
contains `rate limit` case-insensitively, `call_single_request` stamps
`time_of_last_rate_limit_error` with the current time, increments
`num_rate_limit_errors` by one, and raises — it never returns a
`GenericResponse` in this case. -/
theorem c7_rate_limit_classification {α : Type} (request : APIRequest α)
    (httpStatus : Nat) (response : WireResponse) (now : Nat)
    (t : OnlineStatusTracker) (e : WireError)
    (he : response.error = some e)
    (hm : hasSub (pyLower (e.message.getD "")) "rate limit" = true) :
    ∃ t2 msg,
      call_single_request request httpStatus response now t = CallResult.raised t2 msg
      ∧ t2.time_of_last_rate_limit_error = some now
      ∧ t2.num_rate_limit_errors = t.num_rate_limit_errors + 1 := by
  unfold call_single_request
  rw [he]
  simp only [hm, if_true]
  exact ⟨_, _, rfl, rfl, rfl⟩

theorem c7_rate_limit_classification_witness :
    (⟨some ⟨some "Rate limit reached for requests"⟩, none, none⟩ : WireResponse).error
        = some ⟨some "Rate limit reached for requests"⟩
    ∧ hasSub (pyLower ((some "Rate limit reached for requests").getD "")) "rate limit" = true
    ∧ ∃ t2 msg,
        call_single_request (⟨1, ⟨1⟩, ()⟩ : APIRequest Unit) 429
            ⟨some ⟨some "Rate limit reached for requests"⟩, none, none⟩ 11 {}
          = CallResult.raised t2 msg
        ∧ t2.time_of_last_rate_limit_error = some 11
        ∧ t2.num_rate_limit_errors = (0 : Int) + 1 := by
  refine ⟨rfl, by decide, ?_⟩
  exact c7_rate_limit_classification (⟨1, ⟨1⟩, ()⟩ : APIRequest Unit) 429
    ⟨some ⟨some "Rate limit reached for requests"⟩, none, none⟩ 11 {}
    ⟨some "Rate limit reached for requests"⟩ rfl (by decide)

/-- C8, counterexample.  The claim says `call_single_request` returns a
`GenericResponse` exactly when the body has no `error` key and the status
is 200.  At the concrete input below the body has no `error` key and the
status is 200, yet the call raises (the body has no `choices` key, so the
extraction itself raises a `KeyError`), refuting the stated equivalence. -/
theorem c8_return_iff_counterexample :
    (⟨none, none, none⟩ : WireResponse).error = none
    ∧ call_single_request (⟨0, ⟨0⟩, ()⟩ : APIRequest Unit) 200
        (⟨none, none, none⟩ : WireResponse) 0 {}
      = CallResult.raised {} "KeyError: choices" := by
  exact ⟨rfl, by decide⟩

/-- C8, amended.  `call_single_request` returns a `GenericResponse`
exactly when the body has no `error` key, the status is 200, and the full
extraction path is present: a non-empty `choices` array whose first
element carries a `message` object with a `content` entry, and a `usage`
object carrying `prompt_tokens`, `completion_tokens` and `total_tokens`;
in every such case the returned response has `response_errors = none`,
`response_message` equal to that content value (which may be JSON null),
and `token_usage` built from the three usage fields, with the tracker
untouched; in every other case the call raises. -/
theorem c8_return_characterization {α : Type} (request : APIRequest α)
    (httpStatus : Nat) (response : WireResponse) (now : Nat)
    (t : OnlineStatusTracker) :
    ((∃ t2 g, call_single_request request httpStatus response now t
        = CallResult.returned t2 g)
      ↔ response.error = none ∧ httpStatus = 200
        ∧ (∃ content rest, response.choices = some (⟨some ⟨some content⟩⟩ :: rest))
        ∧ (∃ pt ct tt, response.usage = some ⟨some pt, some ct, some tt⟩))
    ∧ (∀ content rest pt ct tt,
        response.error = none → httpStatus = 200
        → response.choices = some (⟨some ⟨some content⟩⟩ :: rest)
        → response.usage = some ⟨some pt, some ct, some tt⟩
        → call_single_request request httpStatus response now t
          = CallResult.returned t
              { response_message := content, response_errors := none,
                generic_request := request.generic_request,
                token_usage := some ⟨pt, ct, tt⟩, raw_response := some response }) := by
  constructor
  · constructor
    · intro hret
      obtain ⟨t2, g, hg⟩ := hret
      unfold call_single_request at hg
      cases he : response.error with
      | some e =>
        rw [he] at hg
        by_cases hr : hasSub (pyLower (e.message.getD "")) "rate limit" = true
        · simp only [hr, if_true] at hg; exact absurd hg (by simp)
        · simp only [Bool.not_eq_true] at hr
          simp only [hr, Bool.false_eq_true, if_false] at hg
          exact absurd hg (by simp)
      | none =>
        rw [he] at hg
        by_cases hs : httpStatus ≠ 200
        · simp only [if_pos hs] at hg; exact absurd hg (by simp)
        · simp only [if_neg hs] at hg
          push_neg at hs
          cases hc : response.choices with
          | none => rw [hc] at hg; exact absurd hg (by simp)
          | some choices =>
            rw [hc] at hg
            cases choices with
            | nil => exact absurd hg (by simp)
            | cons choice rest =>
              obtain ⟨cm⟩ := choice
              cases cm with
              | none => exact absurd hg (by simp)
              | some msg =>
                obtain ⟨mc⟩ := msg
                cases mc with
                | none => exact absurd hg (by simp)
                | some content =>
                  cases hu : response.usage with
                  | none => rw [hu] at hg; exact absurd hg (by simp)
                  | some usage =>
                    rw [hu] at hg
                    obtain ⟨upt, uct, utt⟩ := usage
                    cases upt with
                    | none => exact absurd hg (by simp)
                    | some pt =>
                      cases uct with
                      | none => exact absurd hg (by simp)
                      | some ct =>
                        cases utt with
                        | none => exact absurd hg (by simp)
                        | some tt =>
                          exact ⟨rfl, hs, ⟨content, rest, rfl⟩, ⟨pt, ct, tt, rfl⟩⟩
    · rintro ⟨he, hs, ⟨content, rest, hc⟩, ⟨pt, ct, tt, hu⟩⟩
      have hcall : call_single_request request httpStatus response now t
          = CallResult.returned t
              { response_message := content, response_errors := none,
                generic_request := request.generic_request,
                token_usage := some ⟨pt, ct, tt⟩, raw_response := some response } := by
        unfold call_single_request
        rw [he, hc, hu]
        simp [hs]
      exact ⟨_, _, hcall⟩
  · intro content rest pt ct tt he hs hc hu
    unfold call_single_request
    rw [he, hc, hu]
    simp [hs]

theorem c8_return_characterization_witness :
    call_single_request (⟨2, ⟨2⟩, ()⟩ : APIRequest Unit) 200
        (⟨none, some [⟨some ⟨some (some "hi")⟩⟩], some ⟨some 3, some 4, some 7⟩⟩
          : WireResponse) 0 {}
      = CallResult.returned {}
          { response_message := some "hi", response_errors := none,
            generic_request := ⟨2⟩, token_usage := some ⟨3, 4, 7⟩,
            raw_response := some ⟨none, some [⟨some ⟨some (some "hi")⟩⟩],
              some ⟨some 3, some 4, some 7⟩⟩ } := by
  exact (c8_return_characterization (⟨2, ⟨2⟩, ()⟩ : APIRequest Unit) 200
    (⟨none, some [⟨some ⟨some (some "hi")⟩⟩], some ⟨some 3, some 4, some 7⟩⟩
      : WireResponse) 0 {}).2
    (some "hi") [] 3 4 7 rfl rfl rfl rfl


theorem itemsFold_no_name (enc : String → Nat) (items : List (String × String))
    (h : ∀ kv ∈ items, kv.1 ≠ "name") (a : Int) :
    items.foldl
        (fun a kv =>
          let a1 := a + (enc kv.2 : Int)
          if kv.1 = "name" then a1 - 1 else a1) a
      = a + (items.map (fun kv => (enc kv.2 : Int))).sum := by
  induction items generalizing a with
  | nil => simp
  | cons kv rest ih =>
    have hkv : kv.1 ≠ "name" := h kv (by simp)
    simp only [List.foldl_cons, List.map_cons, List.sum_cons, if_neg hkv]
    rw [ih (fun x hx => h x (by simp [hx]))]
    ring

theorem msgsFold_no_name (enc : String → Nat) (msgs : List PyMessage)
    (h : ∀ m ∈ msgs, ∀ kv ∈ m.items, kv.1 ≠ "name") (a : Int) :
    msgs.foldl
        (fun acc message =>
          message.items.foldl
            (fun a kv =>
              let a1 := a + (enc kv.2 : Int)
              if kv.1 = "name" then a1 - 1 else a1)
            (acc + 4)) a
      = a + 4 * msgs.length
        + (msgs.map (fun m => (m.items.map (fun kv => (enc kv.2 : Int))).sum)).sum := by
  induction msgs generalizing a with
  | nil => simp
  | cons m rest ih =>
    simp only [List.foldl_cons, List.map_cons, List.sum_cons, List.length_cons]
    rw [itemsFold_no_name enc m.items (h m (by simp)) (a + 4)]
    rw [ih (fun x hx => h x (by simp [hx]))]
    push_cast
    ring

/-- C3, counterexample.  The pre-admission estimate is not pessimistic
with respect to the worst-case completion length: `estimate_output_tokens`
contributes only a quarter of the model maximum (integer division).  With
a model maximum of 100 output tokens and the empty message list (so the
tokenizer is never consulted and the wire payload token count is at
least 0), the estimate is 27, strictly below the 100 tokens the claimed
lower bound requires. -/
theorem c3_estimate_not_pessimistic_counterexample :
    estimate_total_tokens (fun _ => 0) (some 100) [] = 27
    ∧ (27 : Int) < 100 := by
  exact ⟨by decide, by decide⟩

/-- C3, amended.  The estimate adds only a quarter of the model maximum
output tokens (zero when the lookup raises), not the full maximum: for
every tokenizer and every message list without `name` keys it equals four
tokens per message, plus the encoded length of every value, plus two
priming tokens, plus `maximum output tokens / 4`. -/
theorem c3_estimate_closed_form (enc : String → Nat) (maxTokens : Nat)
    (msgs : List PyMessage)
    (h : ∀ m ∈ msgs, ∀ kv ∈ m.items, kv.1 ≠ "name") :
    estimate_total_tokens enc (some maxTokens) msgs
      = 4 * msgs.length
        + (msgs.map (fun m => (m.items.map (fun kv => (enc kv.2 : Int))).sum)).sum
        + 2 + ((maxTokens / 4 : Nat) : Int) := by
  unfold estimate_total_tokens estimate_output_tokens
  rw [msgsFold_no_name enc msgs h 0]
  ring

theorem c3_estimate_closed_form_witness :
    (∀ m ∈ [(⟨[("role", "user")]⟩ : PyMessage)], ∀ kv ∈ m.items, kv.1 ≠ "name")
    ∧ estimate_total_tokens String.length (some 40) [⟨[("role", "user")]⟩] = 20 := by
  refine ⟨by decide, ?_⟩
  have h := c3_estimate_closed_form String.length 40 [⟨[("role", "user")]⟩] (by decide)
  rw [h]
  decide

/-- C4.  Fingerprinting is deterministic and location-insensitive: two
function definitions with identical bytecode, literals and referenced
names hash identically even when defined in files at different locations,
and hashing the same definition twice gives the same value.  (Modelled
from the spec: the defining module of the fingerprinting function is not
among the given sources.) -/
theorem c4_function_hash_location_insensitive (f g : FunctionDef)
    (hcode : f.co_code = g.co_code) (hconsts : f.co_consts = g.co_consts)
    (hnames : f.co_names = g.co_names) (hloc : f.co_filename ≠ g.co_filename) :
    getFunctionHash f = getFunctionHash g ∧ getFunctionHash f = getFunctionHash f := by
  refine ⟨?_, rfl⟩
  unfold getFunctionHash fnCanonical
  rw [hcode, hconsts, hnames]

theorem c4_function_hash_location_insensitive_witness :
    ("tmp1/module1.py" ≠ "tmp2/module1.py")
    ∧ getFunctionHash ⟨[100, 90, 83], ["Hello", "42"], ["len"], "test_func", "tmp1/module1.py", 2⟩
      = getFunctionHash ⟨[100, 90, 83], ["Hello", "42"], ["len"], "test_func", "tmp2/module1.py", 9⟩ := by
  refine ⟨by decide, ?_⟩
  exact (c4_function_hash_location_insensitive
    ⟨[100, 90, 83], ["Hello", "42"], ["len"], "test_func", "tmp1/module1.py", 2⟩
    ⟨[100, 90, 83], ["Hello", "42"], ["len"], "test_func", "tmp2/module1.py", 9⟩
    rfl rfl rfl (by decide)).1

theorem dropPrefixQ_append (p r : List Char) : dropPrefixQ p (p ++ r) = some r := by
  induction p with
  | nil => rfl
  | cons a ps ih => simp [dropPrefixQ, ih]

theorem hasSubL_cons_append (a : Char) (ps r : List Char) :
    hasSubL (a :: ps) ((a :: ps) ++ r) = true := by
  have h : (a :: ps) ++ r = a :: (ps ++ r) := rfl
  rw [h]
  simp only [hasSubL]
  rw [← List.cons_append, dropPrefixQ_append]
  simp

theorem splitOnFuel_not_mem (a : Char) (ps l : List Char) (fuel : Nat)
    (h : a ∉ l) (hf : l.length ≤ fuel) : splitOnFuel (a :: ps) fuel l = [l] := by
  induction l generalizing fuel with
  | nil => cases fuel <;> rfl
  | cons c cs ih =>
    have hac : a ≠ c := fun hEq => h (hEq ▸ List.mem_cons_self a cs)
    have hacs : a ∉ cs := fun hm => h (List.mem_cons_of_mem c hm)
    cases fuel with
    | zero => simp at hf
    | succ f =>
      have hdp : dropPrefixQ (a :: ps) (c :: cs) = none := by
        simp [dropPrefixQ, hac]
      show (match dropPrefixQ (a :: ps) (c :: cs) with
        | some rest => [] :: splitOnFuel (a :: ps) f rest
        | none =>
          match splitOnFuel (a :: ps) f cs with
          | [] => [[c]]
          | h :: t => (c :: h) :: t) = [c :: cs]
      rw [hdp, ih f hacs (Nat.le_of_succ_le_succ hf)]

theorem splitOnFuel_cons_append (a : Char) (ps r : List Char) (h : a ∉ r) :
    splitOnFuel (a :: ps) ((a :: ps) ++ r).length ((a :: ps) ++ r) = [[], r] := by
  have hlen : ((a :: ps) ++ r).length = (ps.length + r.length) + 1 := by
    simp [List.length_append]
  rw [hlen]
  show (match dropPrefixQ (a :: ps) (a :: (ps ++ r)) with
    | some rest => [] :: splitOnFuel (a :: ps) (ps.length + r.length) rest
    | none =>
      match splitOnFuel (a :: ps) (ps.length + r.length) (ps ++ r) with
      | [] => [[a]]
      | h :: t => (a :: h) :: t) = [[], r]
  rw [← List.cons_append, dropPrefixQ_append]
  show [] :: splitOnFuel (a :: ps) (ps.length + r.length) r = [[], r]
  rw [splitOnFuel_not_mem a ps r (ps.length + r.length) h (by omega)]

theorem strptimeYMD_shape (s : String) (d : PyDate) (h : strptimeYMD s = some d) :
    s.data.length = 10 ∧ ∀ c ∈ s.data, isDigitC c = true ∨ c = '-' := by
  unfold strptimeYMD at h
  split at h
  next y1 y2 y3 y4 h1 m1 m2 h2 d1 d2 heq =>
    split at h
    next hcond =>
      simp only [Bool.and_eq_true, decide_eq_true_eq] at hcond
      obtain ⟨⟨⟨⟨⟨⟨⟨⟨⟨hy1, hy2⟩, hy3⟩, hy4⟩, hh1⟩, hh2⟩, hm1⟩, hm2⟩, hd1⟩, hd2⟩ := hcond
      constructor
      · rw [heq]; rfl
      · intro c hc
        rw [heq] at hc
        simp only [List.mem_cons, List.not_mem_nil, or_false] at hc
        rcases hc with rfl | rfl | rfl | rfl | rfl | rfl | rfl | rfl | rfl | rfl
        · exact Or.inl hy1
        · exact Or.inl hy2
        · exact Or.inl hy3
        · exact Or.inl hy4
        · exact Or.inr hh1
        · exact Or.inl hm1
        · exact Or.inl hm2
        · exact Or.inr hh2
        · exact Or.inl hd1
        · exact Or.inl hd2
    next => exact absurd h (by simp)
  next => exact absurd h (by simp)

/-- C10.  For every model name of the form `gpt-4o-mini-YYYY-MM-DD`, the
structured-output check raises instead of returning a boolean: after
`strptime` parses the date, the guard evaluates `datetime(2024, 7, 18)`,
but `datetime` names the imported module rather than the class, so the
call raises a `TypeError`.  The undated names `gpt-4o-mini`, `gpt-4o` and
`o1` return `True` without raising. -/
theorem c10_dated_mini_raises (model ds : String) (d : PyDate)
    (hlow : pyLower model = "gpt-4o-mini-" ++ ds)
    (hparse : strptimeYMD ds = some d) :
    check_structured_output_support model
      = Except.error "TypeError: the datetime module is not callable"
    ∧ check_structured_output_support "gpt-4o-mini" = Except.ok true
    ∧ check_structured_output_support "gpt-4o" = Except.ok true
    ∧ check_structured_output_support "o1" = Except.ok true := by
  refine ⟨?_, rfl, rfl, rfl⟩
  obtain ⟨hlen10, hchars⟩ := strptimeYMD_shape ds d hparse
  have hg : 'g' ∉ ds.data := by
    intro hm
    rcases hchars 'g' hm with hd | hd
    · exact absurd hd (by decide)
    · exact absurd hd (by decide)
  have hdata : ("gpt-4o-mini-" ++ ds).data
      = ("gpt-4o-mini-" : String).data ++ ds.data := String.data_append _ _
  have hcons : ("gpt-4o-mini-" : String).data
      = 'g' :: ("pt-4o-mini-" : String).data := rfl
  have hne : ("gpt-4o-mini-" ++ ds) ≠ "gpt-4o-mini" := by
    intro hEq
    have hl := congrArg (fun t => t.data.length) hEq
    simp only [hdata, List.length_append] at hl
    have e1 : ("gpt-4o-mini-" : String).data.length = 12 := rfl
    have e2 : ("gpt-4o-mini" : String).data.length = 11 := rfl
    rw [e1, e2, hlen10] at hl
    omega
  have hsub : hasSub ("gpt-4o-mini-" ++ ds) "gpt-4o-mini-" = true := by
    unfold hasSub
    rw [hdata, hcons]
    exact hasSubL_cons_append 'g' (("pt-4o-mini-" : String).data) ds.data
  have hsplit : pySplit ("gpt-4o-mini-" ++ ds) "gpt-4o-mini-" = ["", ds] := by
    unfold pySplit
    rw [hdata, hcons]
    rw [splitOnFuel_cons_append 'g' (("pt-4o-mini-" : String).data) ds.data hg]
    rfl
  unfold check_structured_output_support
  simp only [hlow]
  rw [if_neg hne, if_pos hsub, hsplit]
  simp only [List.get?]
  rw [hparse]

theorem c10_dated_mini_raises_witness :
    pyLower "gpt-4o-mini-2024-07-18" = "gpt-4o-mini-" ++ "2024-07-18"
    ∧ strptimeYMD "2024-07-18" = some ⟨2024, 7, 18⟩
    ∧ check_structured_output_support "gpt-4o-mini-2024-07-18"
        = Except.error "TypeError: the datetime module is not callable" := by
  refine ⟨by decide, by decide, ?_⟩
  exact (c10_dated_mini_raises "gpt-4o-mini-2024-07-18" "2024-07-18" ⟨2024, 7, 18⟩
    (by decide) (by decide)).1
